import Mathlib

/-!
Verification of `crf_feature_ablation.py` (negation scope detection,
feature-ablation study).  The script's own logic is shallowly embedded:

* a token record is the 16-field tuple built by `read_and_format_data`
  (all TSV cell values are modelled as strings);
* a per-token feature mapping is an association list `List (String × String)`
  in the insertion order of the Python dict literal;
* Python float division on nonnegative integer counts is modelled exactly
  with rational arithmetic (`ℚ`);
* the pandas data frame is a list of 21-field rows; `groupby` sorts the
  distinct group keys ascending and keeps the original row order inside
  each group; assigning a column of mismatched length raises, modelled by
  `Option`.

The external CRF library (training/tagging) is out of scope, as in the spec.
-/

/-- The 16-field per-token tuple produced by `read_and_format_data`
(line 22 of the source), in source order.  TSV cell values are modelled
as strings. -/
structure Tok where
  token : String
  lemma' : String
  pos : String
  cue : String
  constituency_distance : String
  same_clause : String
  same_phrase : String
  is_punct : String
  sentence_position : String
  is_negation_cue : String
  token_distance : String
  dependency_type : String
  dependency_head : String
  distance_to_root : String
  distance_to_cue : String
  label : String
deriving DecidableEq, Repr

/-- Default token, used only to make positional indexing total; every
indexed access below is in range. -/
def dTok : Tok := ⟨"", "", "", "", "", "", "", "", "", "", "", "", "", "", "", ""⟩

/-- `is_in_scope(label)`: a label is in scope iff it is not the literal
string `OS`. -/
def is_in_scope (label : String) : Bool :=
  label != "OS"

/-- `calculate_metrics(y_true, y_pred)`: confusion counts over the zip of
the two label lists, then guarded divisions.  Python `zip` truncates to the
shorter list, as does `List.zip`; float division of integer counts is
modelled with `ℚ`. -/
def calculate_metrics (y_true y_pred : List String) : ℚ × ℚ × ℚ :=
  let true_positives : ℕ :=
    (y_true.zip y_pred).countP (fun p => is_in_scope p.1 && is_in_scope p.2)
  let false_positives : ℕ :=
    (y_true.zip y_pred).countP (fun p => !is_in_scope p.1 && is_in_scope p.2)
  let false_negatives : ℕ :=
    (y_true.zip y_pred).countP (fun p => is_in_scope p.1 && !is_in_scope p.2)
  let precision : ℚ :=
    if true_positives + false_positives > 0 then
      (true_positives : ℚ) / ((true_positives : ℚ) + (false_positives : ℚ))
    else 0
  let recall' : ℚ :=
    if true_positives + false_negatives > 0 then
      (true_positives : ℚ) / ((true_positives : ℚ) + (false_negatives : ℚ))
    else 0
  let f1_score : ℚ :=
    if precision + recall' > 0 then
      2 * (precision * recall') / (precision + recall')
    else 0
  (precision, recall', f1_score)

/-- Modelled from the spec's words, for comparison with `calculate_metrics`:
TP/FP/FN counted over the indices of the (equal-length) lists, and the three
guarded quotients. -/
def metrics_spec (y_true y_pred : List String) : ℚ × ℚ × ℚ :=
  let n := y_true.length
  let tp : ℕ := ((List.range n).filter
    (fun i => is_in_scope (y_true.getD i "") && is_in_scope (y_pred.getD i ""))).length
  let fp : ℕ := ((List.range n).filter
    (fun i => !is_in_scope (y_true.getD i "") && is_in_scope (y_pred.getD i ""))).length
  let fn : ℕ := ((List.range n).filter
    (fun i => is_in_scope (y_true.getD i "") && !is_in_scope (y_pred.getD i ""))).length
  let precision : ℚ := if tp + fp = 0 then 0 else (tp : ℚ) / ((tp : ℚ) + (fp : ℚ))
  let recall' : ℚ := if tp + fn = 0 then 0 else (tp : ℚ) / ((tp : ℚ) + (fn : ℚ))
  let f1 : ℚ := if precision + recall' = 0 then 0
    else 2 * precision * recall' / (precision + recall')
  (precision, recall', f1)

/-- `extract_labels(sentence)`: the gold label of every token, in order. -/
def extract_labels (sentence : List Tok) : List String :=
  sentence.map Tok.label

/-- The Python dict literal of lines 46-65 for the token at index `i` of
`sentence`: the 15 non-label tuple fields plus `lexicalized_pos`,
`prev_pos`, `next_pos`, in source order. -/
def tokenFeatures (sentence : List Tok) (i : ℕ) : List (String × String) :=
  let t := sentence.getD i dTok
  let prev_pos := if i > 0 then (sentence.getD (i - 1) dTok).pos else "START"
  let next_pos := if i < sentence.length - 1 then (sentence.getD (i + 1) dTok).pos else "END"
  [("token", t.token),
   ("lemma", t.lemma'),
   ("pos", t.pos),
   ("lexicalized_pos", t.lemma' ++ "_" ++ t.pos),
   ("cue", t.cue),
   ("prev_pos", prev_pos),
   ("next_pos", next_pos),
   ("constituency_distance", t.constituency_distance),
   ("same_clause", t.same_clause),
   ("same_phrase", t.same_phrase),
   ("is_punct", t.is_punct),
   ("sentence_position", t.sentence_position),
   ("is_negation_cue", t.is_negation_cue),
   ("token_distance", t.token_distance),
   ("dependency_type", t.dependency_type),
   ("dependency_head", t.dependency_head),
   ("distance_to_root", t.distance_to_root),
   ("distance_to_cue", t.distance_to_cue)]

/-- Lines 67-69 of the source: `if exclude_feature and exclude_feature in
features: del features[exclude_feature]`.  The deletion happens only when
the name is truthy (a nonempty string) and present as a key; `del` on a
dict removes that single entry, i.e. the first (only) matching one. -/
def applyExclude (features : List (String × String)) (exclude_feature : Option String) :
    List (String × String) :=
  match exclude_feature with
  | none => features
  | some f =>
      if f ≠ "" ∧ f ∈ features.map Prod.fst then
        features.eraseP (fun kv => kv.1 == f)
      else features

/-- `extract_features(sentence, exclude_feature)`; `exclude_feature=None`
is `none`. -/
def extract_features (sentence : List Tok) (exclude_feature : Option String) :
    List (List (String × String)) :=
  (List.range sentence.length).map (fun i =>
    applyExclude (tokenFeatures sentence i) exclude_feature)

/-- One row of the 21-column TSV data frame, in column order.  pandas
parses `sentence_num` and `token_num` as integers; the remaining cells are
modelled as strings. -/
structure Row where
  doc_id : String
  sentence_num : ℕ
  token_num : ℕ
  token : String
  lemma' : String
  pos : String
  constituency : String
  cue : String
  label : String
  focus : String
  constituency_distance : String
  same_clause : String
  same_phrase : String
  is_punct : String
  sentence_position : String
  is_negation_cue : String
  token_distance : String
  dependency_type : String
  dependency_head : String
  distance_to_root : String
  distance_to_cue : String
deriving DecidableEq, Repr

/-- The `groupby(['doc_id', 'sentence_num'])` key of a row. -/
def r2k (r : Row) : String × ℕ :=
  (r.doc_id, r.sentence_num)

/-- Ascending order on group keys, as pandas sorts them: by document id,
ties broken by sentence number. -/
def keyLe (a b : String × ℕ) : Prop :=
  a.1 < b.1 ∨ (a.1 = b.1 ∧ a.2 ≤ b.2)

instance : DecidableRel keyLe := fun _ _ =>
  inferInstanceAs (Decidable (_ ∨ _))

instance : IsTotal (String × ℕ) keyLe where
  total a b := by
    rcases lt_trichotomy a.1 b.1 with h | h | h
    · exact Or.inl (Or.inl h)
    · rcases Nat.le_total a.2 b.2 with h2 | h2
      · exact Or.inl (Or.inr ⟨h, h2⟩)
      · exact Or.inr (Or.inr ⟨h.symm, h2⟩)
    · exact Or.inr (Or.inl h)

instance : IsTrans (String × ℕ) keyLe where
  trans a b c hab hbc := by
    rcases hab with h1 | ⟨e1, h1⟩ <;> rcases hbc with h2 | ⟨e2, h2⟩
    · exact Or.inl (h1.trans h2)
    · exact Or.inl (e2 ▸ h1)
    · exact Or.inl (e1 ▸ h2)
    · exact Or.inr ⟨e1.trans e2, h1.trans h2⟩

theorem keyLe_antisymm {a b : String × ℕ} (hab : keyLe a b) (hba : keyLe b a) : a = b := by
  rcases hab with h1 | ⟨e1, h1⟩ <;> rcases hba with h2 | ⟨e2, h2⟩
  · exact absurd (h1.trans h2) (lt_irrefl _)
  · exact absurd h1 (e2 ▸ lt_irrefl _)
  · exact absurd h2 (e1 ▸ lt_irrefl _)
  · exact Prod.ext e1 (Nat.le_antisymm h1 h2)

/-- The natural row order of a TSV file sorted by
(document id, sentence number, token number). -/
def rowLe (r s : Row) : Prop :=
  r.doc_id < s.doc_id ∨
    (r.doc_id = s.doc_id ∧
      (r.sentence_num < s.sentence_num ∨
        (r.sentence_num = s.sentence_num ∧ r.token_num ≤ s.token_num)))

instance : DecidableRel rowLe := fun _ _ =>
  inferInstanceAs (Decidable (_ ∨ _))

/-- The 16-field tuple a row of the frame is turned into (line 22 of the
source): `constituency` and `focus` are dropped, the label moves last. -/
def rowToTok (r : Row) : Tok :=
  ⟨r.token, r.lemma', r.pos, r.cue, r.constituency_distance, r.same_clause,
   r.same_phrase, r.is_punct, r.sentence_position, r.is_negation_cue,
   r.token_distance, r.dependency_type, r.dependency_head,
   r.distance_to_root, r.distance_to_cue, r.label⟩

/-- `read_and_format_data(file_path)`: pandas `groupby(['doc_id',
'sentence_num'])` iterates the distinct keys in ascending order; each group
is the subsequence of rows carrying that key, in original row order; each
row becomes a 16-field token tuple. -/
def read_and_format_data (rows : List Row) : List (List Tok) :=
  (List.insertionSort keyLe ((rows.map r2k).dedup)).map
    (fun k => (rows.filter (fun r => r2k r = k)).map rowToTok)

/-- `write_predictions_to_file(original_file_path, sentences_with_predictions,
output_file_path)`: re-reads the original rows, flattens the nested
predictions, and overwrites the label column.  pandas raises when the
assigned list's length differs from the row count, before anything is
serialized; the error is modelled by `none`. -/
def write_predictions_to_file (rows : List Row) (sentences_with_predictions : List (List String)) :
    Option (List Row) :=
  let predictions_flat := sentences_with_predictions.flatten
  if predictions_flat.length = rows.length then
    some (List.zipWith (fun r l => { r with label := l }) rows predictions_flat)
  else
    none

/-- Sample tokens and sentence for concrete witnesses. -/
def tokA : Tok :=
  ⟨"The", "the", "DT", "NC", "1", "True", "True", "False", "0", "False", "1",
   "det", "2", "2", "3", "OS"⟩

def tokB : Tok :=
  ⟨"not", "not", "RB", "C", "0", "True", "True", "False", "1", "True", "0",
   "neg", "2", "1", "0", "NEG"⟩

def sampleSentence : List Tok := [tokA, tokB]

/-- Sample row builder for concrete witnesses. -/
def mkRow (d : String) (s t : ℕ) (lab : String) : Row :=
  ⟨d, s, t, "w", "l", "P", "c", "cu", lab, "f", "1", "T", "T", "F", "0", "F",
   "1", "dt", "dh", "2", "3"⟩

def sampleRows : List Row :=
  [mkRow "a" 0 0 "OS", mkRow "a" 0 1 "NEG", mkRow "a" 1 0 "OS"]

def samplePreds : List (List String) := [["NEG", "OS"], ["NEG"]]

/-- Counting a zipped predicate over two equal-length lists equals counting
the corresponding index predicate over `range`. -/
lemma countP_zip_eq_range (p : String × String → Bool) :
    ∀ (l₁ l₂ : List String), l₁.length = l₂.length →
      (l₁.zip l₂).countP p =
        ((List.range l₁.length).filter (fun i => p (l₁.getD i "", l₂.getD i ""))).length
  | [], [], _ => rfl
  | [], _ :: _, h => by simp at h
  | _ :: _, [], h => by simp at h
  | a :: l₁, b :: l₂, h => by
    have ih := countP_zip_eq_range p l₁ l₂ (by simpa using h)
    simp only [List.zip_cons_cons, List.countP_cons, List.length_cons,
      List.range_succ_eq_map, List.filter_cons, List.getD_cons_zero, List.filter_map,
      List.length_map, List.getD_cons_succ]
    rw [ih]
    split <;> simp [Function.comp_def, Nat.add_comm]

/-- The positivity-guarded quotient equals the zero-test-guarded quotient. -/
lemma guard_div_eq (a b : ℕ) :
    (if a + b > 0 then (a : ℚ) / ((a : ℚ) + (b : ℚ)) else 0) =
      (if a + b = 0 then 0 else (a : ℚ) / ((a : ℚ) + (b : ℚ))) := by
  rcases Nat.eq_zero_or_pos (a + b) with h | h
  · rw [if_neg (by omega), if_pos h]
  · rw [if_pos h, if_neg (by omega)]

lemma guard2_nonneg (a b : ℕ) :
    0 ≤ (if a + b = 0 then (0 : ℚ) else (a : ℚ) / ((a : ℚ) + (b : ℚ))) := by
  split_ifs with h
  · exact le_refl 0
  · positivity

lemma guard_f1_eq (p r : ℚ) (hp : 0 ≤ p) (hr : 0 ≤ r) :
    (if p + r > 0 then 2 * (p * r) / (p + r) else 0) =
      (if p + r = 0 then 0 else 2 * p * r / (p + r)) := by
  rcases eq_or_lt_of_le (by linarith : (0 : ℚ) ≤ p + r) with h | h
  · rw [if_neg (by rw [← h]; exact lt_irrefl 0), if_pos h.symm]
  · rw [if_pos h, if_neg (by linarith)]
    ring_nf

/-- C1: for equal-length label lists, `calculate_metrics` returns exactly the
spec's (precision, recall, F1): TP/FP/FN counted over indices with the
in-scope partition, each quotient 0 when its denominator is 0; on gold
`["OS","NEG","OS"]` and predicted `["OS","NEG","NEG"]` it returns
precision 1/2, recall 1, and F1 = 2/3. -/
theorem calculate_metrics_spec_correct :
    (∀ y_true y_pred : List String, y_true.length = y_pred.length →
      calculate_metrics y_true y_pred = metrics_spec y_true y_pred) ∧
    calculate_metrics ["OS", "NEG", "OS"] ["OS", "NEG", "NEG"] = (1/2, 1, 2/3) := by
  constructor
  · intro y_true y_pred h
    simp only [calculate_metrics, metrics_spec]
    rw [countP_zip_eq_range _ _ _ h, countP_zip_eq_range _ _ _ h, countP_zip_eq_range _ _ _ h,
      guard_div_eq, guard_div_eq, guard_f1_eq _ _ (guard2_nonneg _ _) (guard2_nonneg _ _)]
  · simp [calculate_metrics, is_in_scope, List.zip, List.zipWith, List.countP, List.countP.go]
    norm_num

/-- Witness for C1 at concrete inputs. -/
theorem calculate_metrics_spec_correct_witness :
    calculate_metrics ["OS"] ["NEG"] = metrics_spec ["OS"] ["NEG"] ∧
    calculate_metrics ["OS", "NEG", "OS"] ["OS", "NEG", "NEG"] = (1/2, 1, 2/3) :=
  ⟨calculate_metrics_spec_correct.1 ["OS"] ["NEG"] rfl, calculate_metrics_spec_correct.2⟩

/-- C3 counterexample: the empty pair of lists has identical lengths and
every label (vacuously) in scope, yet F1 is 0, not 1. -/
theorem all_in_scope_empty_f1_ne_one :
    ([] : List String).length = ([] : List String).length ∧
    (∀ l ∈ ([] : List String), is_in_scope l = true) ∧
    (calculate_metrics [] []).2.2 ≠ 1 := by
  refine ⟨rfl, by simp, ?_⟩
  simp [calculate_metrics, List.zip]

/-- C3 (amended): for every NON-EMPTY pair of equal-length label lists in
which every gold and every predicted label is in scope, F1 is 1, regardless
of whether any predicted label matches its gold label. -/
theorem all_in_scope_nonempty_f1_one (y_true y_pred : List String)
    (hlen : y_true.length = y_pred.length) (hne : y_true ≠ [])
    (ht : ∀ l ∈ y_true, is_in_scope l = true)
    (hp : ∀ l ∈ y_pred, is_in_scope l = true) :
    (calculate_metrics y_true y_pred).2.2 = 1 := by
  have hzlen : (y_true.zip y_pred).length = y_true.length := by
    rw [List.length_zip, hlen, Nat.min_self]
  have htp : (y_true.zip y_pred).countP (fun q => is_in_scope q.1 && is_in_scope q.2)
      = y_true.length := by
    rw [← hzlen]
    refine List.countP_eq_length.mpr (fun q hq => ?_)
    obtain ⟨h1, h2⟩ := List.of_mem_zip hq
    simp [ht _ h1, hp _ h2]
  have hfp : (y_true.zip y_pred).countP (fun q => !is_in_scope q.1 && is_in_scope q.2) = 0 := by
    refine List.countP_eq_zero.mpr (fun q hq => ?_)
    obtain ⟨h1, _⟩ := List.of_mem_zip hq
    simp [ht _ h1]
  have hfn : (y_true.zip y_pred).countP (fun q => is_in_scope q.1 && !is_in_scope q.2) = 0 := by
    refine List.countP_eq_zero.mpr (fun q hq => ?_)
    obtain ⟨_, h2⟩ := List.of_mem_zip hq
    simp [hp _ h2]
  have hn : 0 < y_true.length := List.length_pos.mpr hne
  have hnq : ((y_true.length : ℚ)) ≠ 0 := Nat.cast_ne_zero.mpr (by omega)
  simp only [calculate_metrics, htp, hfp, hfn]
  rw [if_pos (by omega : y_true.length + 0 > 0)]
  push_cast
  rw [add_zero, div_self hnq]
  norm_num

/-- Witness for the amended C3: one in-scope token, label mismatched, F1 1. -/
theorem all_in_scope_nonempty_f1_one_witness :
    (calculate_metrics ["NEG"] ["FOO"]).2.2 = 1 :=
  all_in_scope_nonempty_f1_one ["NEG"] ["FOO"] rfl (by decide) (by decide) (by decide)

/-- C7: every one of the three divisions inside `calculate_metrics` is
guarded and yields 0 on a zero denominator; with all labels `OS` on both
sides, precision, recall and F1 are all 0. -/
theorem metrics_division_guarded (y_true y_pred : List String) :
    ((y_true.zip y_pred).countP (fun q => is_in_scope q.1 && is_in_scope q.2) +
        (y_true.zip y_pred).countP (fun q => !is_in_scope q.1 && is_in_scope q.2) = 0 →
      (calculate_metrics y_true y_pred).1 = 0) ∧
    ((y_true.zip y_pred).countP (fun q => is_in_scope q.1 && is_in_scope q.2) +
        (y_true.zip y_pred).countP (fun q => is_in_scope q.1 && !is_in_scope q.2) = 0 →
      (calculate_metrics y_true y_pred).2.1 = 0) ∧
    ((calculate_metrics y_true y_pred).1 + (calculate_metrics y_true y_pred).2.1 = 0 →
      (calculate_metrics y_true y_pred).2.2 = 0) ∧
    ((∀ l ∈ y_true, l = "OS") → (∀ l ∈ y_pred, l = "OS") →
      calculate_metrics y_true y_pred = (0, 0, 0)) := by
  refine ⟨?_, ?_, ?_, ?_⟩
  · intro h
    simp only [calculate_metrics]
    rw [if_neg (by omega)]
  · intro h
    simp only [calculate_metrics]
    rw [if_neg (by omega)]
  · intro h
    simp only [calculate_metrics] at h ⊢
    rw [if_neg (by rw [h]; exact lt_irrefl 0)]
  · intro ht hp
    have h1 : (y_true.zip y_pred).countP (fun q => is_in_scope q.1 && is_in_scope q.2) = 0 := by
      refine List.countP_eq_zero.mpr (fun q hq => ?_)
      obtain ⟨m1, _⟩ := List.of_mem_zip hq
      simp [is_in_scope, ht _ m1]
    have h2 : (y_true.zip y_pred).countP (fun q => !is_in_scope q.1 && is_in_scope q.2) = 0 := by
      refine List.countP_eq_zero.mpr (fun q hq => ?_)
      obtain ⟨_, m2⟩ := List.of_mem_zip hq
      simp [is_in_scope, hp _ m2]
    have h3 : (y_true.zip y_pred).countP (fun q => is_in_scope q.1 && !is_in_scope q.2) = 0 := by
      refine List.countP_eq_zero.mpr (fun q hq => ?_)
      obtain ⟨m1, _⟩ := List.of_mem_zip hq
      simp [is_in_scope, ht _ m1]
    simp [calculate_metrics, h1, h2, h3]

/-- Witness for C7 with both lists all `OS`. -/
theorem metrics_division_guarded_witness :
    (calculate_metrics ["OS"] ["OS"]).1 = 0 ∧ calculate_metrics ["OS"] ["OS"] = (0, 0, 0) :=
  ⟨(metrics_division_guarded ["OS"] ["OS"]).1 (by decide),
   (metrics_division_guarded ["OS"] ["OS"]).2.2.2 (by decide) (by decide)⟩

/-- C9: on lists of unequal length the counts run over the common prefix
only (Python `zip` truncates), so the result coincides with the metrics of
the two prefixes of length `min` and the trailing labels of the longer list
have no effect; no error is raised. -/
theorem metrics_common_prefix (y_true y_pred : List String) :
    calculate_metrics y_true y_pred =
      calculate_metrics (y_true.take (min y_true.length y_pred.length))
        (y_pred.take (min y_true.length y_pred.length)) := by
  have hzip : (y_true.take (min y_true.length y_pred.length)).zip
      (y_pred.take (min y_true.length y_pred.length)) = y_true.zip y_pred := by
    rw [List.zip_eq_zipWith, List.zip_eq_zipWith, ← List.take_zipWith,
      List.take_of_length_le]
    rw [List.length_zipWith]
  simp only [calculate_metrics, hzip]

/-- For an in-range index, the per-token result of `extract_features` is
the feature dict of that index with the exclusion applied. -/
lemma extract_features_getD (sentence : List Tok) (ex : Option String) (i : ℕ)
    (h : i < sentence.length) :
    (extract_features sentence ex).getD i [] = applyExclude (tokenFeatures sentence i) ex := by
  unfold extract_features
  rw [List.getD_eq_getElem _ _ (by simpa using h)]
  simp

/-- The key sequence of every per-token feature dict is the fixed list of
the 18 literal names, independent of the token values. -/
lemma tokenFeatures_keys (sentence : List Tok) (i : ℕ) :
    (tokenFeatures sentence i).map Prod.fst =
      ["token", "lemma", "pos", "lexicalized_pos", "cue", "prev_pos", "next_pos",
       "constituency_distance", "same_clause", "same_phrase", "is_punct",
       "sentence_position", "is_negation_cue", "token_distance", "dependency_type",
       "dependency_head", "distance_to_root", "distance_to_cue"] := rfl

/-- C2 counterexample: the per-token feature mapping has 18 keys, not 17
(the dict holds the 15 non-label tuple fields plus `lexicalized_pos`,
`prev_pos` and `next_pos`). -/
theorem feature_mapping_not_17_keys :
    (((extract_features [dTok] none).getD 0 []).map Prod.fst).length = 18 ∧ (18 : ℕ) ≠ 17 :=
  ⟨rfl, by decide⟩

/-- C2 (amended): for every token of every sentence, the mapping built with
no excluded feature contains exactly 18 keys — the 15 token attributes other
than the gold label, plus `lexicalized_pos` (equal to lemma + "_" + POS),
plus `prev_pos` and `next_pos`. -/
theorem feature_mapping_18_keys (sentence : List Tok) (i : ℕ) (h : i < sentence.length) :
    ((extract_features sentence none).getD i []).map Prod.fst =
      ["token", "lemma", "pos", "lexicalized_pos", "cue", "prev_pos", "next_pos",
       "constituency_distance", "same_clause", "same_phrase", "is_punct",
       "sentence_position", "is_negation_cue", "token_distance", "dependency_type",
       "dependency_head", "distance_to_root", "distance_to_cue"] ∧
    ((extract_features sentence none).getD i []).length = 18 ∧
    ((extract_features sentence none).getD i []).lookup "lexicalized_pos" =
      some ((sentence.getD i dTok).lemma' ++ "_" ++ (sentence.getD i dTok).pos) := by
  rw [extract_features_getD _ _ _ h]
  exact ⟨rfl, rfl, rfl⟩

/-- Witness for the amended C2 on a one-token sentence. -/
theorem feature_mapping_18_keys_witness :
    (0 : ℕ) < ([dTok] : List Tok).length ∧
    ((extract_features [dTok] none).getD 0 []).length = 18 ∧
    ((extract_features [dTok] none).getD 0 []).lookup "lexicalized_pos" = some "_" :=
  ⟨by decide, (feature_mapping_18_keys [dTok] 0 (by decide)).2.1,
   (feature_mapping_18_keys [dTok] 0 (by decide)).2.2⟩

/-- C4: `extract_features` preserves the sentence length, and for every
index the mapping records the previous and next POS, with the sentinels
`START` at the first token and `END` at the last. -/
theorem prev_next_pos_correct (sentence : List Tok) (_hne : sentence ≠ []) :
    (extract_features sentence none).length = sentence.length ∧
    ∀ i, i < sentence.length →
      ((extract_features sentence none).getD i []).lookup "prev_pos" =
        some (if i = 0 then "START" else (sentence.getD (i - 1) dTok).pos) ∧
      ((extract_features sentence none).getD i []).lookup "next_pos" =
        some (if i = sentence.length - 1 then "END" else (sentence.getD (i + 1) dTok).pos) := by
  refine ⟨by simp [extract_features], fun i hi => ?_⟩
  rw [extract_features_getD _ _ _ hi]
  constructor
  · show (tokenFeatures sentence i).lookup "prev_pos" = _
    by_cases h0 : i = 0
    · subst h0
      simp [tokenFeatures, List.lookup]
    · have : i > 0 := Nat.pos_of_ne_zero h0
      simp [tokenFeatures, List.lookup, this, h0]
  · show (tokenFeatures sentence i).lookup "next_pos" = _
    by_cases hl : i = sentence.length - 1
    · have : ¬ i < sentence.length - 1 := by omega
      simp [tokenFeatures, List.lookup, this, hl]
    · have : i < sentence.length - 1 := by omega
      simp [tokenFeatures, List.lookup, this, hl]

/-- Witness for C4 on a concrete two-token sentence. -/
theorem prev_next_pos_correct_witness :
    (extract_features sampleSentence none).length = sampleSentence.length ∧
    ((extract_features sampleSentence none).getD 0 []).lookup "prev_pos" = some "START" ∧
    ((extract_features sampleSentence none).getD 1 []).lookup "prev_pos" = some "DT" ∧
    ((extract_features sampleSentence none).getD 1 []).lookup "next_pos" = some "END" := by
  have h := prev_next_pos_correct sampleSentence (by decide)
  refine ⟨h.1, ?_, ?_, ?_⟩
  · have := (h.2 0 (by decide)).1
    simpa using this
  · have := (h.2 1 (by decide)).1
    simpa [sampleSentence, tokA] using this
  · have := (h.2 1 (by decide)).2
    simpa [sampleSentence] using this

/-- C5: excluding a name that is a key removes exactly that entry from the
token's mapping, leaving every other entry (key and value) unchanged;
excluding a name that is not a key leaves `extract_features` entirely
unchanged. -/
theorem exclude_feature_exact (sentence : List Tok) (i : ℕ) (h : i < sentence.length)
    (k : String) :
    (k ∈ ((extract_features sentence none).getD i []).map Prod.fst →
      (extract_features sentence (some k)).getD i [] =
        ((extract_features sentence none).getD i []).filter (fun kv => kv.1 ≠ k)) ∧
    (k ∉ ((extract_features sentence none).getD i []).map Prod.fst →
      extract_features sentence (some k) = extract_features sentence none) := by
  rw [extract_features_getD _ _ _ h, extract_features_getD _ _ _ h]
  show (k ∈ (tokenFeatures sentence i).map Prod.fst → _) ∧
    (k ∉ (tokenFeatures sentence i).map Prod.fst → _)
  rw [tokenFeatures_keys]
  constructor
  · intro hk
    simp only [List.mem_cons, List.not_mem_nil, or_false] at hk
    show applyExclude (tokenFeatures sentence i) (some k) =
      (tokenFeatures sentence i).filter (fun kv => kv.1 ≠ k)
    rcases hk with rfl | rfl | rfl | rfl | rfl | rfl | rfl | rfl | rfl | rfl | rfl | rfl |
      rfl | rfl | rfl | rfl | rfl | rfl <;> rfl
  · intro hk
    unfold extract_features
    refine List.map_congr_left (fun j _ => ?_)
    show (if k ≠ "" ∧ k ∈ (tokenFeatures sentence j).map Prod.fst then
        (tokenFeatures sentence j).eraseP (fun kv => kv.1 == k)
      else tokenFeatures sentence j) = tokenFeatures sentence j
    rw [if_neg]
    intro hc
    rw [tokenFeatures_keys] at hc
    exact hk hc.2

/-- Witness for C5: excluding the key `pos` and the non-key `shape`. -/
theorem exclude_feature_exact_witness :
    (extract_features sampleSentence (some "pos")).getD 0 [] =
      ((extract_features sampleSentence none).getD 0 []).filter (fun kv => kv.1 ≠ "pos") ∧
    extract_features sampleSentence (some "shape") = extract_features sampleSentence none :=
  ⟨(exclude_feature_exact sampleSentence 0 (by decide) "pos").1 (by decide),
   (exclude_feature_exact sampleSentence 0 (by decide) "shape").2 (by decide)⟩

/-- C8: `extract_labels` is total and returns the gold label of each token,
in order, with the same length as the sentence. -/
theorem extract_labels_correct (sentence : List Tok) :
    (extract_labels sentence).length = sentence.length ∧
    ∀ i, i < sentence.length →
      (extract_labels sentence).getD i "" = (sentence.getD i dTok).label := by
  refine ⟨by simp [extract_labels], fun i hi => ?_⟩
  rw [List.getD_eq_getElem _ _ (by simpa [extract_labels] using hi),
    List.getD_eq_getElem _ _ hi]
  simp [extract_labels]

/-- Witness for C8 on the sample sentence. -/
theorem extract_labels_correct_witness :
    (extract_labels sampleSentence).length = sampleSentence.length ∧
    (extract_labels sampleSentence).getD 0 "" = (sampleSentence.getD 0 dTok).label :=
  ⟨(extract_labels_correct sampleSentence).1,
   (extract_labels_correct sampleSentence).2 0 (by decide)⟩

/-- If along a list every element satisfying `p` only follows elements
satisfying `p`, then filtering by `p` is taking the initial `p`-segment and
filtering by `not p` is dropping it. -/
lemma filter_takeWhile_split (p : Row → Bool) :
    ∀ (l : List Row), List.Pairwise (fun a b => p b = true → p a = true) l →
      l.filter p = l.takeWhile p ∧ l.filter (fun a => !p a) = l.dropWhile p
  | [], _ => ⟨rfl, rfl⟩
  | a :: l, h => by
    obtain ⟨hhead, htail⟩ := List.pairwise_cons.mp h
    obtain ⟨ih1, ih2⟩ := filter_takeWhile_split p l htail
    by_cases hpa : p a = true
    · refine ⟨?_, ?_⟩
      · rw [List.filter_cons_of_pos hpa, List.takeWhile_cons_of_pos hpa, ih1]
      · rw [List.filter_cons_of_neg (by simp [hpa]), List.dropWhile_cons_of_pos hpa, ih2]
    · have hall : ∀ b ∈ l, ¬ p b = true := fun b hb hpb => hpa (hhead b hb hpb)
      refine ⟨?_, ?_⟩
      · rw [List.filter_cons_of_neg hpa, List.takeWhile_cons_of_neg hpa]
        exact List.filter_eq_nil_iff.mpr hall
      · rw [List.filter_cons_of_pos (by simp [hpa]), List.dropWhile_cons_of_neg hpa]
        congr 1
        refine List.filter_eq_self.mpr (fun b hb => ?_)
        simp [hall b hb]

/-- Concatenating, over a sorted duplicate-free key list covering all row
keys, the key-filtered groups of a key-sorted row list gives back the rows. -/
lemma join_groups :
    ∀ (ks : List (String × ℕ)) (rows : List Row), ks.Nodup → List.Pairwise keyLe ks →
      (∀ r ∈ rows, r2k r ∈ ks) →
      List.Pairwise (fun r s => keyLe (r2k r) (r2k s)) rows →
      (ks.map (fun k => rows.filter (fun r => r2k r = k))).flatten = rows
  | [], rows, _, _, hsub, _ => by
    have : rows = [] := List.eq_nil_iff_forall_not_mem.mpr (fun r hr => by simpa using hsub r hr)
    simp [this]
  | k :: ks', rows, hnd, hks, hsub, hrows => by
    obtain ⟨hk_notmem, hnd'⟩ := List.nodup_cons.mp hnd
    obtain ⟨hk_le, hks'⟩ := List.pairwise_cons.mp hks
    have hpw : List.Pairwise
        (fun a b => (fun r => decide (r2k r = k)) b = true → (fun r => decide (r2k r = k)) a = true)
        rows := by
      refine List.Pairwise.imp_of_mem ?_ hrows
      intro a b ha hb hle hpb
      have hbk : r2k b = k := of_decide_eq_true hpb
      by_cases hak : r2k a = k
      · simp [hak]
      · have hmem : r2k a ∈ ks' := (List.mem_cons.mp (hsub a ha)).resolve_left hak
        have h1 : keyLe k (r2k a) := hk_le _ hmem
        have h2 : keyLe (r2k a) k := hbk ▸ hle
        exact absurd (keyLe_antisymm h2 h1) hak
    obtain ⟨hfilt, hfilt'⟩ := filter_takeWhile_split (fun r => decide (r2k r = k)) rows hpw
    have step : ks'.map (fun k' => rows.filter (fun r => r2k r = k')) =
        ks'.map (fun k' => (rows.dropWhile (fun r => decide (r2k r = k))).filter
          (fun r => r2k r = k')) := by
      refine List.map_congr_left (fun k' hk' => ?_)
      rw [← hfilt', List.filter_filter]
      refine (List.filter_congr (fun r _ => ?_)).symm
      by_cases h : r2k r = k'
      · have hne2 : ¬ k' = k := fun e => hk_notmem (e ▸ hk')
        simp [h, hne2]
      · simp [h]
    have hdrop_sub : ∀ r ∈ rows.dropWhile (fun r => decide (r2k r = k)), r2k r ∈ ks' := by
      intro r hr
      have hrmem : r ∈ rows := (List.dropWhile_sublist _).subset hr
      have hne : ¬ r2k r = k := by
        rw [← hfilt'] at hr
        simpa using (List.mem_filter.mp hr).2
      exact (List.mem_cons.mp (hsub r hrmem)).resolve_left hne
    have hdrop_pw : List.Pairwise (fun r s => keyLe (r2k r) (r2k s))
        (rows.dropWhile (fun r => decide (r2k r = k))) :=
      List.Pairwise.sublist (List.dropWhile_sublist _) hrows
    have ihres := join_groups ks' (rows.dropWhile (fun r => decide (r2k r = k)))
      hnd' hks' hdrop_sub hdrop_pw
    rw [List.map_cons, List.flatten_cons, step, ihres, hfilt,
      List.takeWhile_append_dropWhile]

/-- Flattening the sentences loaded from a key-sorted row list recovers the
rows themselves, as token tuples. -/
lemma flatten_read (rows : List Row)
    (hst : List.Pairwise (fun r s => keyLe (r2k r) (r2k s)) rows) :
    (read_and_format_data rows).flatten = rows.map rowToTok := by
  unfold read_and_format_data
  have hperm : List.Perm (List.insertionSort keyLe ((rows.map r2k).dedup)) ((rows.map r2k).dedup) :=
    List.perm_insertionSort keyLe _
  have hnd : (List.insertionSort keyLe ((rows.map r2k).dedup)).Nodup :=
    hperm.nodup_iff.mpr (List.nodup_dedup _)
  have hsorted : List.Pairwise keyLe (List.insertionSort keyLe ((rows.map r2k).dedup)) :=
    List.sorted_insertionSort keyLe _
  have hsub : ∀ r ∈ rows, r2k r ∈ List.insertionSort keyLe ((rows.map r2k).dedup) := by
    intro r hr
    rw [hperm.mem_iff, List.mem_dedup]
    exact List.mem_map_of_mem r2k hr
  have hjoin := join_groups (List.insertionSort keyLe ((rows.map r2k).dedup)) rows
    hnd hsorted hsub hst
  calc ((List.insertionSort keyLe ((rows.map r2k).dedup)).map
          (fun k => (rows.filter (fun r => r2k r = k)).map rowToTok)).flatten
      = (((List.insertionSort keyLe ((rows.map r2k).dedup)).map
          (fun k => rows.filter (fun r => r2k r = k))).flatten).map rowToTok := by
        rw [List.map_flatten, List.map_map]; rfl
    _ = rows.map rowToTok := by rw [hjoin]

/-- Overwriting the label column leaves a row's label equal to the assigned
prediction, position by position. -/
lemma zipWith_label_map :
    ∀ (rows : List Row) (flat : List String), flat.length = rows.length →
      (List.zipWith (fun r l => { r with label := l }) rows flat).map (fun r => r.label) = flat
  | [], [], _ => rfl
  | [], _ :: _, h => by simp at h
  | _ :: _, [], h => by simp at h
  | r :: rows, l :: flat, h => by
    simp only [List.zipWith_cons_cons, List.map_cons]
    rw [zipWith_label_map rows flat (by simpa using h)]

/-- Overwriting the label column does not change any row's group key. -/
lemma zipWith_r2k_map :
    ∀ (rows : List Row) (flat : List String), flat.length = rows.length →
      (List.zipWith (fun r l => { r with label := l }) rows flat).map r2k = rows.map r2k
  | [], [], _ => rfl
  | [], _ :: _, h => by simp at h
  | _ :: _, [], h => by simp at h
  | r :: rows, l :: flat, h => by
    simp only [List.zipWith_cons_cons, List.map_cons]
    rw [zipWith_r2k_map rows flat (by simpa using h)]
    rfl

/-- C6: for a file already ordered by (document id, sentence number, token
number) and predictions whose flattened length equals the row count, writing
the predictions, re-loading the written file and extracting each sentence's
label column reproduces exactly, in order, the predictions written. -/
theorem write_read_roundtrip (rows : List Row) (preds : List (List String))
    (hsort : List.Pairwise rowLe rows)
    (hlen : preds.flatten.length = rows.length) :
    ∃ out, write_predictions_to_file rows preds = some out ∧
      ((read_and_format_data out).map extract_labels).flatten = preds.flatten := by
  refine ⟨List.zipWith (fun r l => { r with label := l }) rows preds.flatten, ?_, ?_⟩
  · simp only [write_predictions_to_file]
    rw [if_pos hlen]
  · set out := List.zipWith (fun r l => { r with label := l }) rows preds.flatten with hout
    have hkeys : out.map r2k = rows.map r2k := zipWith_r2k_map rows preds.flatten hlen
    have hrowkey : List.Pairwise (fun r s => keyLe (r2k r) (r2k s)) rows := by
      refine hsort.imp ?_
      intro r s hle
      rcases hle with h | ⟨e, h⟩
      · exact Or.inl h
      · rcases h with h | ⟨e2, _⟩
        · exact Or.inr ⟨e, Nat.le_of_lt h⟩
        · exact Or.inr ⟨e, Nat.le_of_eq e2⟩
    have hsort' : List.Pairwise (fun r s => keyLe (r2k r) (r2k s)) out := by
      rw [← List.pairwise_map (f := r2k)] at hrowkey ⊢
      rw [hkeys]
      exact hrowkey
    have hflat := flatten_read out hsort'
    calc ((read_and_format_data out).map extract_labels).flatten
        = (((read_and_format_data out).map (List.map Tok.label))).flatten := rfl
      _ = ((read_and_format_data out).flatten).map Tok.label := by rw [List.map_flatten]
      _ = (out.map rowToTok).map Tok.label := by rw [hflat]
      _ = out.map (fun r => r.label) := by rw [List.map_map]; rfl
      _ = preds.flatten := zipWith_label_map rows preds.flatten hlen

/-- Witness for C6: two sentences in one document, three rows. -/
theorem write_read_roundtrip_witness :
    ∃ out, write_predictions_to_file sampleRows samplePreds = some out ∧
      ((read_and_format_data out).map extract_labels).flatten = samplePreds.flatten :=
  write_read_roundtrip sampleRows samplePreds
    (by simp [List.pairwise_cons, rowLe, mkRow, sampleRows]) (by decide)

/-- C10: when the flattened prediction count differs from the row count,
the label-column assignment fails and no output rows are produced. -/
theorem write_length_mismatch_none (rows : List Row) (preds : List (List String))
    (h : preds.flatten.length ≠ rows.length) :
    write_predictions_to_file rows preds = none := by
  simp only [write_predictions_to_file]
  rw [if_neg h]

/-- Witness for C10: one prediction for three rows. -/
theorem write_length_mismatch_none_witness :
    write_predictions_to_file sampleRows [["NEG"]] = none :=
  write_length_mismatch_none sampleRows [["NEG"]] (by decide)
